import Mathlib

/-!
Shallow embedding of the STM repository's hazard-pointer primitive
(src/hazard.rs) and its generic atomic wrapper (src/atomic.rs).

The shared cell is a single pointer-sized atomic slot.  Raw pointer
values are modelled as natural numbers (the pointer's bit pattern,
null being 0).  The three sentinel values `BLOCKED`, `FREE`, `DEAD`
are the addresses of three fixed static bytes; those addresses are
pairwise distinct and non-null, which we record in a `Sentinels`
structure.  Every atomic access performed by the source carries its
memory ordering, so each embedded operation returns, alongside its
result, the atomic event (store or load, with its ordering) that the
corresponding Rust function performs.
-/

namespace STM

/-- Memory orderings of the Rust `std::sync::atomic::Ordering` values used. -/
inductive MemOrd where
  | relaxed
  | acquire
  | release
  | acqrel
  | seqcst
deriving DecidableEq, Repr

/-- Atomic events on the shared cell: a store of a raw value, or a load,
each with the memory ordering written at the corresponding source line. -/
inductive Event where
  | store (val : Nat) (ord : MemOrd)
  | load (ord : MemOrd)
deriving DecidableEq, Repr

/-- Ordering carried by an event. -/
def Event.ord : Event → MemOrd
  | .store _ o => o
  | .load o => o

/-- Addresses of the three static sentinel bytes (`static BLOCKED/FREE/DEAD`
in src/hazard.rs).  They are addresses of distinct static bytes, hence
pairwise distinct and distinct from the null pointer. -/
structure Sentinels where
  blocked : Nat
  free : Nat
  dead : Nat
  blocked_ne_free : blocked ≠ free
  blocked_ne_dead : blocked ≠ dead
  free_ne_dead : free ≠ dead
  blocked_ne_null : blocked ≠ 0
  free_ne_null : free ≠ 0
  dead_ne_null : dead ≠ 0

/-- The public `State` enum of src/hazard.rs. -/
inductive State where
  | Free
  | Dead
  | Protect (p : Nat)
deriving DecidableEq, Repr

/-- The heap-allocated shared cell: its current raw value and whether its
backing allocation is still live (freed by `Reader::destroy`). -/
structure Channel where
  cell : Nat
  allocated : Bool
deriving DecidableEq, Repr

/-- The Reader handle; `armed` is true while its `Drop` impl would still run
(`mem::forget` in `destroy` disarms it). -/
structure ReaderH where
  armed : Bool
deriving DecidableEq, Repr

/-- The Writer handle; `armed` is true while its `Drop` impl would still run
(`mem::forget` in `kill` disarms it). -/
structure WriterH where
  armed : Bool
deriving DecidableEq, Repr

/-- An atomic store on the cell: the new raw value together with the event. -/
def AtomicPtr.store (v : Nat) (o : MemOrd) : Nat × Event :=
  (v, Event.store v o)

/-- An atomic load of the cell: the observed raw value together with the event. -/
def AtomicPtr.load (cur : Nat) (o : MemOrd) : Nat × Event :=
  (cur, Event.load o)

/-- The `create()` factory: allocates the cell initialized to the `BLOCKED`
sentinel and returns the Reader/Writer pair, both destructors armed. -/
def create (S : Sentinels) : Channel × ReaderH × WriterH :=
  ({ cell := S.blocked, allocated := true }, { armed := true }, { armed := true })

/-- The loop of `Reader::get`.  The argument list holds the successive raw
values observed by the acquire loads of the spin loop (one entry per loop
iteration; for a quiescent cell every entry is the cell's current value).
Returns `none` when every observation was the `BLOCKED` sentinel (the loop
is still spinning, `get` has not returned), otherwise the decoded `State`
at the first non-blocked observation; also returns the list of atomic
events performed. -/
def Reader.get (S : Sentinels) : List Nat → Option State × List Event
  | [] => (none, [])
  | v :: vs =>
      let le := AtomicPtr.load v MemOrd.acquire
      if le.1 = S.blocked then
        let r := Reader.get S vs
        (r.1, le.2 :: r.2)
      else if le.1 = S.free then (some State.Free, [le.2])
      else if le.1 = S.dead then (some State.Dead, [le.2])
      else (some (State.Protect le.1), [le.2])

/-- Result of `Reader::get` on a cell whose value is not changing while the
reader spins: `none` means the spin loop never returns. -/
def getConst (S : Sentinels) (c : Nat) : Option State :=
  (Reader.get S [c]).1

/-- Decoding of a non-blocked raw value into a `State`, in the order the
source checks (`FREE`, then `DEAD`, else `Protect`). -/
def decode (S : Sentinels) (v : Nat) : State :=
  if v = S.free then State.Free
  else if v = S.dead then State.Dead
  else State.Protect v

/-- Outcome of `Reader::destroy`. -/
inductive DestroyResult where
  /-- the internal `get()` spins forever (cell holds `BLOCKED`) -/
  | spins
  /-- the observed state was not `Dead`: fatal; the channel and the handle
  are carried unchanged (the deallocation was never reached) -/
  | fatal (ch : Channel) (r : ReaderH)
  /-- success: backing allocation freed, destructor disarmed -/
  | freed (ch : Channel) (r : ReaderH)
deriving DecidableEq, Repr

/-- The body of `Reader::destroy`: checks the state via an internal `get()`,
is fatal when it is not `Dead`, otherwise frees the cell's backing
allocation and disarms the handle's destructor (`mem::forget`). -/
def Reader.destroy (S : Sentinels) (ch : Channel) (r : ReaderH) : DestroyResult :=
  match getConst S ch.cell with
  | none => DestroyResult.spins
  | some s =>
      if s ≠ State.Dead then DestroyResult.fatal ch r
      else DestroyResult.freed { ch with allocated := false } { r with armed := false }

/-- The body of `Writer::is_blocked`: one acquire load compared with the
`BLOCKED` sentinel. -/
def Writer.is_blocked (S : Sentinels) (ch : Channel) : Bool × Event :=
  let le := AtomicPtr.load ch.cell MemOrd.acquire
  (decide (le.1 = S.blocked), le.2)

/-- The body of `Writer::block`: release-store of the `BLOCKED` sentinel. -/
def Writer.block (S : Sentinels) (ch : Channel) : Channel × Event :=
  let se := AtomicPtr.store S.blocked MemOrd.release
  ({ ch with cell := se.1 }, se.2)

/-- The body of `Writer::free`: release-store of the `FREE` sentinel. -/
def Writer.free (S : Sentinels) (ch : Channel) : Channel × Event :=
  let se := AtomicPtr.store S.free MemOrd.release
  ({ ch with cell := se.1 }, se.2)

/-- The body of `Writer::protect`: release-store of the raw pointer value. -/
def Writer.protect (S : Sentinels) (ch : Channel) (p : Nat) : Channel × Event :=
  let se := AtomicPtr.store p MemOrd.release
  ({ ch with cell := se.1 }, se.2)

/-- The private `Writer::dead`: release-store of the `DEAD` sentinel. -/
def Writer.dead (S : Sentinels) (ch : Channel) : Channel × Event :=
  let se := AtomicPtr.store S.dead MemOrd.release
  ({ ch with cell := se.1 }, se.2)

/-- The body of `Writer::kill`: performs the `dead()` store, then
`mem::forget(self)` disarms the handle's destructor.  Consumption of the
Writer itself (no further Writer operation reachable) is Rust move
semantics: `kill` takes `self` by value. -/
def Writer.kill (S : Sentinels) (ch : Channel) (w : WriterH) : Channel × WriterH × Event :=
  let de := Writer.dead S ch
  (de.1, { w with armed := false }, de.2)

/-- Outcome of a destructor run. -/
inductive DropResult where
  /-- the destructor itself is fatal; the channel is carried unchanged -/
  | fatalDrop (ch : Channel)
  /-- the destructor completed quietly, leaving the given channel -/
  | quiet (ch : Channel)
deriving DecidableEq, Repr

/-- The body of `impl Drop for Writer`, parameterized by whether the thread
is already unwinding (`thread::panicking()`): fatal when not unwinding,
otherwise quietly performs the `dead()` store.  Also returns the atomic
events performed. -/
def Writer.dropRun (S : Sentinels) (panicking : Bool) (ch : Channel) :
    DropResult × List Event :=
  if ¬ panicking then (DropResult.fatalDrop ch, [])
  else
    let de := Writer.dead S ch
    (DropResult.quiet de.1, [de.2])

/-- The body of `impl Drop for Reader`: unconditionally fatal, with no
check of `thread::panicking()` and no store. -/
def Reader.dropRun (panicking : Bool) (ch : Channel) : DropResult × List Event :=
  (DropResult.fatalDrop ch, [])

/-- The public Writer operations, as trace elements. -/
inductive WOp where
  | block
  | free
  | protect (p : Nat)
  | kill
deriving DecidableEq, Repr

/-- Effect of one public Writer operation on the channel. -/
def applyOp (S : Sentinels) (ch : Channel) : WOp → Channel
  | WOp.block => (Writer.block S ch).1
  | WOp.free => (Writer.free S ch).1
  | WOp.protect p => (Writer.protect S ch p).1
  | WOp.kill => (Writer.kill S ch { armed := true }).1

/-- Channel after a sequence of public Writer operations. -/
def runOps (S : Sentinels) (ch : Channel) (ops : List WOp) : Channel :=
  ops.foldl (applyOp S) ch

/-- Allocator model for `Box::into_raw`: a bump allocator over abstract
addresses.  `next` is the next fresh address (non-null as long as it starts
positive); `mem` maps allocated addresses to their owned values. -/
structure Heap (T : Type) where
  next : Nat
  mem : List (Nat × T)
deriving Repr

/-- Heap allocation of an owned value, returning its address: models
`Box::new` followed by `Box::into_raw`. -/
def Heap.alloc {T : Type} (h : Heap T) (x : T) : Nat × Heap T :=
  (h.next, { next := h.next + 1, mem := (h.next, x) :: h.mem })

/-- Value owned at an address, if any. -/
def Heap.lookup {T : Type} (h : Heap T) (a : Nat) : Option T :=
  (h.mem.find? (fun q => q.1 == a)).map (fun q => q.2)

/-- The `Atomic<T>` wrapper of src/atomic.rs: a single pointer-sized slot
holding the raw pointer value (0 is the null pointer). -/
structure Atomic (T : Type) where
  inner : Nat
deriving DecidableEq, Repr

/-- The body of `Atomic::new`: with an owned value, moves it to the heap and
stores its address in the slot (`init.map_or(ptr::null_mut(), Box::into_raw)`);
with none, the slot is the null pointer.  Returns the wrapper and the heap. -/
def Atomic.new {T : Type} (h : Heap T) (init : Option T) : Atomic T × Heap T :=
  match init with
  | none => ({ inner := 0 }, h)
  | some x =>
      let ah := Heap.alloc h x
      ({ inner := ah.1 }, ah.2)

/-- A concrete sentinel layout (three distinct non-null static addresses),
used to evaluate the model on concrete inputs. -/
def S0 : Sentinels where
  blocked := 1000
  free := 1001
  dead := 1002
  blocked_ne_free := by decide
  blocked_ne_dead := by decide
  free_ne_dead := by decide
  blocked_ne_null := by decide
  free_ne_null := by decide
  dead_ne_null := by decide

/-! Helper lemmas. -/

/-- A get on a quiescent non-blocked cell returns the decoded state at once. -/
theorem getConst_of_ne (S : Sentinels) (c : Nat) (h : c ≠ S.blocked) :
    getConst S c = some (decode S c) := by
  unfold getConst Reader.get decode AtomicPtr.load
  by_cases hf : c = S.free <;> by_cases hd : c = S.dead <;> simp_all

/-- A get on a quiescent blocked cell never returns. -/
theorem getConst_blocked (S : Sentinels) : getConst S S.blocked = none := by
  simp [getConst, Reader.get, AtomicPtr.load]

/-- While every observation is the blocked sentinel, get has not returned. -/
theorem get_replicate_blocked (S : Sentinels) (n : Nat) :
    (Reader.get S (List.replicate n S.blocked)).1 = none := by
  induction n with
  | zero => rfl
  | succ k ih =>
      rw [List.replicate_succ]
      unfold Reader.get
      simp [AtomicPtr.load, ih]

/-- After observing blocked any number of times, the first non-blocked
observation makes get return its decoded state immediately. -/
theorem get_after_unblock (S : Sentinels) (n : Nat) (v : Nat) (hv : v ≠ S.blocked) :
    (Reader.get S (List.replicate n S.blocked ++ [v])).1 = some (decode S v) := by
  induction n with
  | zero => exact getConst_of_ne S v hv
  | succ k ih =>
      rw [List.replicate_succ, List.cons_append]
      unfold Reader.get
      simp [AtomicPtr.load, ih]

/-! Claim theorems. -/

/-- C1: provided the internal `get()` observes a value (the cell is not
`Blocked`), `Reader::destroy` succeeds if and only if the observed state is
`Dead`: on `Dead` it frees the shared cell's backing allocation and disarms
the Reader's destructor check; on any other observed state it is fatal. -/
theorem destroy_iff_dead (S : Sentinels) (ch : Channel) (r : ReaderH)
    (h : ch.cell ≠ S.blocked) :
    (getConst S ch.cell = some State.Dead →
       Reader.destroy S ch r =
         DestroyResult.freed { ch with allocated := false } { r with armed := false })
    ∧ (getConst S ch.cell ≠ some State.Dead →
       Reader.destroy S ch r = DestroyResult.fatal ch r) := by
  have hg := getConst_of_ne S ch.cell h
  constructor
  · intro hd
    rw [hg] at hd
    unfold Reader.destroy
    rw [hg, Option.some.inj hd]
    simp
  · intro hnd
    rw [hg] at hnd
    have hne : decode S ch.cell ≠ State.Dead := fun hdd => hnd (by rw [hdd])
    unfold Reader.destroy
    rw [hg]
    simp [hne]

/-- Witness for C1 at a concrete dead cell. -/
theorem destroy_iff_dead_witness :
    Reader.destroy S0 { cell := 1002, allocated := true } { armed := true } =
      DestroyResult.freed { cell := 1002, allocated := false } { armed := false } :=
  (destroy_iff_dead S0 { cell := 1002, allocated := true } { armed := true }
      (by decide)).1 (by decide)

/-- C8: on the fatal path of `Reader::destroy` (observed state not `Dead`)
the channel is returned exactly as it was — the backing allocation has not
been freed and the stored value is unchanged — and the handle is unchanged. -/
theorem destroy_fatal_unchanged (S : Sentinels) (ch : Channel) (r : ReaderH)
    (ch' : Channel) (r' : ReaderH)
    (h : Reader.destroy S ch r = DestroyResult.fatal ch' r') :
    ch' = ch ∧ r' = r := by
  unfold Reader.destroy at h
  rcases hg : getConst S ch.cell with _ | s
  · rw [hg] at h
    simp at h
  · rw [hg] at h
    by_cases hd : s = State.Dead
    · simp [hd] at h
    · simp [hd] at h
      exact ⟨h.1.symm, h.2.symm⟩

/-- Witness for C8 at a concrete free (hence not dead) cell. -/
theorem destroy_fatal_unchanged_witness :
    ({ cell := 1001, allocated := true } : Channel) = { cell := 1001, allocated := true }
    ∧ ({ armed := true } : ReaderH) = { armed := true } :=
  destroy_fatal_unchanged S0 { cell := 1001, allocated := true } { armed := true }
    { cell := 1001, allocated := true } { armed := true } (by decide)

/-- C2: `Writer::kill` stores the `Dead` sentinel into the shared cell and
disarms the Writer's destructor check (its `Drop` never runs), and a
subsequent `Reader::get` on the cell returns `State::Dead`.  No further
Writer operation is reachable because `kill` takes the Writer by value. -/
theorem kill_makes_dead (S : Sentinels) (ch : Channel) (w : WriterH) :
    (Writer.kill S ch w).1.cell = S.dead
    ∧ (Writer.kill S ch w).2.1.armed = false
    ∧ getConst S (Writer.kill S ch w).1.cell = some State.Dead := by
  refine ⟨rfl, rfl, ?_⟩
  have h1 : (Writer.kill S ch w).1.cell = S.dead := rfl
  rw [h1, getConst_of_ne S S.dead (Ne.symm S.blocked_ne_dead)]
  unfold decode
  rw [if_neg (Ne.symm S.free_ne_dead), if_pos rfl]

/-- C3: for every raw pointer value that is not one of the three sentinel
addresses, after `Writer::protect(p)` a `Reader::get` returns
`State::Protect(p)`; in particular this holds for the null pointer, and
`Protect(null)` is distinct from `Free`. -/
theorem protect_get_protect (S : Sentinels) (ch : Channel) (p : Nat)
    (hb : p ≠ S.blocked) (hf : p ≠ S.free) (hd : p ≠ S.dead) :
    getConst S (Writer.protect S ch p).1.cell = some (State.Protect p)
    ∧ getConst S (Writer.protect S ch 0).1.cell = some (State.Protect 0)
    ∧ State.Protect 0 ≠ State.Free := by
  refine ⟨?_, ?_, by simp⟩
  · have hc : (Writer.protect S ch p).1.cell = p := rfl
    rw [hc, getConst_of_ne S p hb]
    unfold decode
    rw [if_neg hf, if_neg hd]
  · have hc0 : (Writer.protect S ch 0).1.cell = 0 := rfl
    rw [hc0, getConst_of_ne S 0 (Ne.symm S.blocked_ne_null)]
    unfold decode
    rw [if_neg (Ne.symm S.free_ne_null), if_neg (Ne.symm S.dead_ne_null)]

/-- Witness for C3 at a concrete non-sentinel pointer value. -/
theorem protect_get_protect_witness :
    getConst S0 (Writer.protect S0 (create S0).1 5).1.cell = some (State.Protect 5)
    ∧ getConst S0 (Writer.protect S0 (create S0).1 0).1.cell = some (State.Protect 0)
    ∧ State.Protect 0 ≠ State.Free :=
  protect_get_protect S0 (create S0).1 5 (by decide) (by decide) (by decide)

/-- C4: a freshly created channel is Blocked: `Writer::is_blocked` reports
true, `Reader::get` does not return while every observation is the Blocked
sentinel, and as soon as a non-Blocked value is observed it returns
immediately with the decoded state. -/
theorem create_blocked_spec (S : Sentinels) (n : Nat) (v : Nat)
    (hv : v ≠ S.blocked) :
    (Writer.is_blocked S (create S).1).1 = true
    ∧ (Reader.get S (List.replicate n (create S).1.cell)).1 = none
    ∧ (Reader.get S (List.replicate n S.blocked ++ [v])).1 = some (decode S v) := by
  refine ⟨?_, ?_, get_after_unblock S n v hv⟩
  · simp [Writer.is_blocked, AtomicPtr.load, create]
  · have h : (create S).1.cell = S.blocked := rfl
    rw [h]
    exact get_replicate_blocked S n

/-- Witness for C4 with two blocked observations and then the free sentinel. -/
theorem create_blocked_spec_witness :
    (Writer.is_blocked S0 (create S0).1).1 = true
    ∧ (Reader.get S0 (List.replicate 2 (create S0).1.cell)).1 = none
    ∧ (Reader.get S0 (List.replicate 2 S0.blocked ++ [1001])).1 = some (decode S0 1001) :=
  create_blocked_spec S0 2 1001 (by decide)

/-- C6: dropping a Writer that was not consumed by `kill` is fatal when the
thread is not already unwinding; when it is unwinding, the destructor
quietly stores the `Dead` sentinel and raises no additional failure. -/
theorem writer_drop_semantics (S : Sentinels) (ch : Channel) :
    (Writer.dropRun S false ch).1 = DropResult.fatalDrop ch
    ∧ (Writer.dropRun S true ch).1 = DropResult.quiet { ch with cell := S.dead } := by
  constructor <;> rfl

/-- C7: dropping a Reader that was not consumed by `destroy` is fatal
unconditionally — for both values of `thread::panicking()` — unlike the
Writer's destructor, which has a quiet path while unwinding. -/
theorem reader_drop_always_fatal (b : Bool) (S : Sentinels) (ch : Channel) :
    (Reader.dropRun b ch).1 = DropResult.fatalDrop ch
    ∧ (Writer.dropRun S true ch).1 ≠ DropResult.fatalDrop ch := by
  constructor
  · rfl
  · intro hcon
    have hq : (Writer.dropRun S true ch).1 = DropResult.quiet { ch with cell := S.dead } := rfl
    rw [hq] at hcon
    exact absurd hcon (by simp)

/-- Every atomic event of the `get` spin loop is an acquire load. -/
theorem get_events_acquire (S : Sentinels) (vs : List Nat) :
    ∀ e ∈ (Reader.get S vs).2, e = Event.load MemOrd.acquire := by
  induction vs with
  | nil =>
      intro e he
      simp [Reader.get] at he
  | cons v rest ih =>
      intro e he
      unfold Reader.get at he
      by_cases hv : v = S.blocked
      · simp [AtomicPtr.load, hv] at he
        rcases he with he | he
        · exact he
        · exact ih e he
      · by_cases hf : v = S.free <;> by_cases hd : v = S.dead <;>
          simp_all [AtomicPtr.load]

/-- C10: every state-changing store performed by the Writer (`block`,
`free`, `protect`, the `dead` store shared by `kill` and the destructor)
uses release ordering, and every load performed by `Reader::get` and by
`Writer::is_blocked` uses acquire ordering. -/
theorem release_acquire_discipline (S : Sentinels) (ch : Channel) (p : Nat)
    (w : WriterH) (b : Bool) (vs : List Nat) :
    (Writer.block S ch).2 = Event.store S.blocked MemOrd.release
    ∧ (Writer.free S ch).2 = Event.store S.free MemOrd.release
    ∧ (Writer.protect S ch p).2 = Event.store p MemOrd.release
    ∧ (Writer.dead S ch).2 = Event.store S.dead MemOrd.release
    ∧ (Writer.kill S ch w).2.2 = Event.store S.dead MemOrd.release
    ∧ (∀ e ∈ (Writer.dropRun S b ch).2, e = Event.store S.dead MemOrd.release)
    ∧ (Writer.is_blocked S ch).2 = Event.load MemOrd.acquire
    ∧ (∀ e ∈ (Reader.get S vs).2, e = Event.load MemOrd.acquire) := by
  refine ⟨rfl, rfl, rfl, rfl, rfl, ?_, rfl, get_events_acquire S vs⟩
  intro e he
  cases b <;> simp [Writer.dropRun, Writer.dead, AtomicPtr.store] at he
  exact he

/-- Running a sequence of operations splits over append. -/
theorem runOps_append (S : Sentinels) (ch : Channel) (l₁ l₂ : List WOp) :
    runOps S ch (l₁ ++ l₂) = runOps S (runOps S ch l₁) l₂ := by
  simp [runOps, List.foldl_append]

/-- No single public operation other than kill can leave the Dead sentinel
in the cell, as long as protect is not handed a sentinel address. -/
theorem applyOp_ne_dead (S : Sentinels) (ch : Channel) (op : WOp)
    (hop : op ≠ WOp.kill) (hp : ∀ p, op = WOp.protect p → p ≠ S.dead) :
    (applyOp S ch op).cell ≠ S.dead := by
  cases op with
  | block => exact S.blocked_ne_dead
  | free => exact S.free_ne_dead
  | protect p => exact hp p rfl
  | kill => exact absurd rfl hop

/-- A nonempty kill-free run (protect never given the Dead sentinel) does
not leave the Dead sentinel in the cell. -/
theorem runOps_ne_dead (S : Sentinels) :
    ∀ (ops : List WOp) (ch : Channel),
      (∀ op ∈ ops, op ≠ WOp.kill) →
      (∀ p, WOp.protect p ∈ ops → p ≠ S.dead) →
      ops ≠ [] → (runOps S ch ops).cell ≠ S.dead := by
  intro ops
  induction ops with
  | nil => intro ch _ _ hne; exact absurd rfl hne
  | cons op rest ih =>
      intro ch hk hp _
      have hstep : runOps S ch (op :: rest) = runOps S (applyOp S ch op) rest := rfl
      rcases Decidable.em (rest = []) with hr | hr
      · subst hr
        rw [hstep]
        exact applyOp_ne_dead S ch op (hk op (List.mem_singleton.mpr rfl))
          (fun p hpe => hp p (by simp [hpe]))
      · rw [hstep]
        exact ih (applyOp S ch op)
          (fun o ho => hk o (List.mem_cons_of_mem _ ho))
          (fun p hpe => hp p (List.mem_cons_of_mem _ hpe)) hr

/-- A proper prefix of a list is a prefix of its dropLast. -/
theorem prefix_of_dropLast {α : Type} (pre ops : List α) (hpre : pre <+: ops)
    (hlt : pre.length < ops.length) : pre <+: ops.dropLast := by
  obtain ⟨t, rfl⟩ := hpre
  rcases List.eq_nil_or_concat' t with rfl | ⟨t', a, rfl⟩
  · simp at hlt
  · rw [← List.append_assoc, List.dropLast_concat]
    exact List.prefix_append pre t'

/-- C5 counterexample: the cell does re-enter Blocked after leaving it,
because Writer::block is a public operation that stores the Blocked
sentinel: after create and free the cell is not Blocked, and a further
block makes it Blocked again. -/
theorem block_reenters_blocked :
    (runOps S0 (create S0).1 [WOp.free]).cell ≠ S0.blocked
    ∧ (runOps S0 (create S0).1 [WOp.free, WOp.block]).cell = S0.blocked := by
  constructor
  · decide
  · rfl

/-- C5 (amended): along any sequence of public Writer operations in which
kill appears only in the last position (kill consumes the Writer, so
nothing can follow it) and protect is never handed the Dead sentinel
address, the cell starts Blocked, may pass through Blocked, Free and
Protect states — block may re-enter Blocked — and holds the Dead sentinel
exactly when the sequence ends with kill: no proper prefix reaches Dead,
so Dead is terminal and reached at most once. -/
theorem dead_terminal (S : Sentinels) (ops : List WOp)
    (hkill : ∀ op ∈ ops.dropLast, op ≠ WOp.kill)
    (hp : ∀ p, WOp.protect p ∈ ops → p ≠ S.dead) :
    (∀ pre, pre <+: ops → pre.length < ops.length →
        (runOps S (create S).1 pre).cell ≠ S.dead)
    ∧ ((runOps S (create S).1 ops).cell = S.dead ↔ ops.getLast? = some WOp.kill) := by
  constructor
  · intro pre hpre hlt
    rcases Decidable.em (pre = []) with rfl | hne
    · exact S.blocked_ne_dead
    · have hpd := prefix_of_dropLast pre ops hpre hlt
      exact runOps_ne_dead S pre (create S).1
        (fun op ho => hkill op (hpd.subset ho))
        (fun p hpe => hp p (hpre.subset hpe)) hne
  · rcases List.eq_nil_or_concat' ops with rfl | ⟨l, op, rfl⟩
    · constructor
      · intro hcon; exact absurd hcon S.blocked_ne_dead
      · intro hcon; simp at hcon
    · rw [runOps_append, List.getLast?_concat]
      have hsingle : runOps S (runOps S (create S).1 l) [op]
          = applyOp S (runOps S (create S).1 l) op := rfl
      rw [hsingle]
      rcases Decidable.em (op = WOp.kill) with rfl | hne
      · exact ⟨fun _ => rfl, fun _ => rfl⟩
      · constructor
        · intro hcon
          exact absurd hcon (applyOp_ne_dead S _ op hne
            (fun p hpe => hp p (by simp [hpe])))
        · intro hcon
          exact absurd (Option.some.inj hcon) hne

/-- Witness for C5 (amended) on a concrete free-protect-kill run. -/
theorem dead_terminal_witness :
    (runOps S0 (create S0).1 [WOp.free, WOp.protect 7, WOp.kill]).cell = S0.dead :=
  (dead_terminal S0 [WOp.free, WOp.protect 7, WOp.kill] (by decide)
      (fun p hpe => by
        simp at hpe
        subst hpe
        decide)).2.mpr (by decide)

/-- C9: `Atomic::new` with an owned value moves it to the heap and stores
its (non-null) address in the slot; with none the slot is the null
pointer; the constructor is total. -/
theorem atomic_new_spec (T : Type) (h : Heap T) (x : T) (hn : 0 < h.next) :
    Atomic.new h (none : Option T) = ({ inner := 0 }, h)
    ∧ (Atomic.new h (some x)).1.inner = h.next
    ∧ (Atomic.new h (some x)).1.inner ≠ 0
    ∧ Heap.lookup (Atomic.new h (some x)).2 (Atomic.new h (some x)).1.inner = some x := by
  refine ⟨rfl, rfl, ?_, ?_⟩
  · exact Nat.pos_iff_ne_zero.mp hn
  · unfold Heap.lookup Atomic.new Heap.alloc
    simp [List.find?]

/-- Witness for C9 over a concrete heap of naturals. -/
theorem atomic_new_spec_witness :
    Atomic.new (⟨1, []⟩ : Heap Nat) none = ({ inner := 0 }, ⟨1, []⟩)
    ∧ (Atomic.new (⟨1, []⟩ : Heap Nat) (some 42)).1.inner = 1
    ∧ (Atomic.new (⟨1, []⟩ : Heap Nat) (some 42)).1.inner ≠ 0
    ∧ Heap.lookup (Atomic.new (⟨1, []⟩ : Heap Nat) (some 42)).2
        (Atomic.new (⟨1, []⟩ : Heap Nat) (some 42)).1.inner = some 42 :=
  atomic_new_spec Nat ⟨1, []⟩ 42 (by decide)

end STM
